import Mathlib

/-!
# Verification of the `azure-login` retry engine and kubeconfig merge

Shallow embedding of `src/internal/retry/retry.go` (failure classifier
`IsRetryable`, retry driver `Config.Do`, environment loader `LoadConfig`)
and of the kubeconfig upsert `Kubeconfig.MergeClusterCredentials` from the
`aks` package, together with theorems settling the specification claims.

Modelling conventions:
* A Go `error` value is `Option GoError` (`none` = nil).  The `GoError`
  inductive captures exactly the shapes the classifier inspects: the
  `context.Canceled` / `context.DeadlineExceeded` sentinels, `syscall.Errno`
  values, `*url.Error`, `*net.OpError`, `*net.DNSError`, a generic value
  implementing the `net.Error` interface, a plain `errors.New` error, and a
  `fmt.Errorf("...: %w", e)` wrapper.  Results of the standard-library
  methods `Timeout()` / `Temporary()` on url/op/dns/net errors are carried
  as boolean fields, since `retry.go` treats them as opaque predicates.
* `errors.Is` / `errors.As` walk the `Unwrap` chain; the chain steps are
  `url.Error → Err`, `net.OpError → Err`, `%w`-wrapper → wrapped error.
* `time.Duration` values are rationals (nanoseconds); the float64 backoff
  arithmetic of Go is modelled as exact rational arithmetic.
-/

namespace AzureLogin

/-- Linux values of the `syscall.Errno` constants used by `retry.go`. -/
def ECONNRESET : Nat := 104
def ECONNREFUSED : Nat := 111
def ENETUNREACH : Nat := 101
def EHOSTUNREACH : Nat := 113
def ECONNABORTED : Nat := 103
def ETIMEDOUT : Nat := 110
def EAGAIN : Nat := 11
def EINTR : Nat := 4
def EMFILE : Nat := 24
def ENFILE : Nat := 23

/-- Model of a non-nil Go `error` value as inspected by `IsRetryable`.

`urlError t tp e` is a `*url.Error` whose `Timeout()` method returns `t`,
whose `Temporary()` method returns `tp`, and whose `Err` field is `e`.
`opError t tp e` is a `*net.OpError` with `Timeout() = t`, `Temporary() = tp`
and `Err` field `e`; a nil `Err` field is modelled by the leaf `goNil`,
which terminates every unwrap chain and matches no error shape, exactly as
a nil error does in Go.
`dnsError t tp` is a `*net.DNSError` with `Timeout() = t`, `Temporary() = tp`.
`netError t tp` is any other value implementing the `net.Error` interface.
`basic s` is an `errors.New(s)` error; `wrapf s e` is `fmt.Errorf` with `%w`. -/
inductive GoError where
  | goNil : GoError
  | canceled : GoError
  | deadlineExceeded : GoError
  | errno (code : Nat) : GoError
  | urlError (timeoutFlag temporaryFlag : Bool) (err : GoError) : GoError
  | opError (timeoutFlag temporaryFlag : Bool) (err : GoError) : GoError
  | dnsError (timeoutFlag temporaryFlag : Bool) : GoError
  | netError (timeoutFlag temporaryFlag : Bool) : GoError
  | basic (msg : String) : GoError
  | wrapf (msg : String) (inner : GoError) : GoError
deriving DecidableEq, BEq, Repr

namespace GoError

/-- Go `Unwrap`: `url.Error` and `net.OpError` expose their `Err` field,
a `%w` wrapper exposes the wrapped error; every other shape is a leaf. -/
def unwrap : GoError → Option GoError
  | urlError _ _ e => some e
  | opError _ _ goNil => none
  | opError _ _ e => some e
  | wrapf _ e => some e
  | _ => none

/-- Go `errors.Is(e, target)`: value equality at each node of the unwrap
chain.  (Sentinel errors — `context.Canceled`, `context.DeadlineExceeded`,
`syscall.Errno` values — are compared by value in Go as well.) -/
def goIs : GoError → GoError → Bool
  | e, target =>
    e == target ||
      match e with
      | urlError _ _ inner => goIs inner target
      | opError _ _ inner => goIs inner target
      | wrapf _ inner => goIs inner target
      | _ => false

/-- Go `errors.As(err, &urlErr)` for target type `*url.Error`: the first
node of the unwrap chain that is a `url.Error`, as its field tuple
`(Timeout(), Temporary(), Err)`. -/
def asUrlError : GoError → Option (Bool × Bool × GoError)
  | urlError t tp e => some (t, tp, e)
  | opError _ _ inner => asUrlError inner
  | wrapf _ inner => asUrlError inner
  | _ => none

/-- Go `errors.As(err, &opErr)` for target type `*net.OpError`. -/
def asOpError : GoError → Option (Bool × Bool × GoError)
  | opError t tp e => some (t, tp, e)
  | urlError _ _ inner => asOpError inner
  | wrapf _ inner => asOpError inner
  | _ => none

/-- Go `errors.As(err, &dnsErr)` for target type `*net.DNSError`. -/
def asDNSError : GoError → Option (Bool × Bool)
  | dnsError t tp => some (t, tp)
  | urlError _ _ inner => asDNSError inner
  | opError _ _ inner => asDNSError inner
  | wrapf _ inner => asDNSError inner
  | _ => none

/-- `syscall.Errno.Timeout()` (Linux): EAGAIN, EWOULDBLOCK (= EAGAIN) or
ETIMEDOUT. -/
def errnoTimeout (c : Nat) : Bool := c == EAGAIN || c == ETIMEDOUT

/-- `syscall.Errno.Temporary()` (Linux): EINTR, EMFILE, ENFILE or a
timeout errno. -/
def errnoTemporary (c : Nat) : Bool :=
  c == EINTR || c == EMFILE || c == ENFILE || errnoTimeout c

/-- Size of an error term, used as recursion fuel for the classifier. -/
def esize : GoError → Nat
  | urlError _ _ e => esize e + 1
  | opError _ _ e => esize e + 1
  | wrapf _ e => esize e + 1
  | _ => 1

/-- Go `errors.As(err, &netErr)` for the `net.Error` interface: the first
node of the unwrap chain implementing it (`url.Error`, `net.OpError`,
`net.DNSError`, `syscall.Errno` and generic net errors all do), as its
`(Timeout(), Temporary())` pair. -/
def asNetError : GoError → Option (Bool × Bool)
  | urlError t tp _ => some (t, tp)
  | opError t tp _ => some (t, tp)
  | dnsError t tp => some (t, tp)
  | netError t tp => some (t, tp)
  | errno c => some (errnoTimeout c, errnoTemporary c)
  | wrapf _ inner => asNetError inner
  | _ => none

end GoError

open GoError

/-- The non-recursive tail of `IsRetryable` (everything after the
`url.Error` block of `retry.go`): the context-error check, the
`net.OpError` block (which falls through when not retryable), the
`net.DNSError` check and the generic `net.Error` check. -/
def classifyRest (e : GoError) : Bool :=
  if goIs e .canceled || goIs e .deadlineExceeded then false
  else
    let opRetryable : Bool :=
      match asOpError e with
      | some (_, tp, opInner) =>
        (if opInner == .goNil then false
         else
           goIs opInner (.errno ECONNRESET) || goIs opInner (.errno ECONNREFUSED) ||
             goIs opInner (.errno ENETUNREACH) || goIs opInner (.errno EHOSTUNREACH) ||
             goIs opInner (.errno ECONNABORTED) || goIs opInner (.errno ETIMEDOUT)) || tp
      | none => false
    if opRetryable then true
    else
      match asDNSError e with
      | some (_, tp) => tp
      | none =>
        match asNetError e with
        | some (t, tp) => t || tp
        | none => false

/-- Fuelled body of `IsRetryable` on a non-nil error: the `url.Error`
block first (return `true` on a self-reported timeout, otherwise recurse
into `urlErr.Err`), then `classifyRest`.  The fuel only bounds the
recursion depth; `isRetryableE` supplies enough fuel for any input. -/
def isRetryableFuel : Nat → GoError → Bool
  | 0, _ => false
  | fuel + 1, e =>
    match asUrlError e with
    | some (t, _, inner) => if t then true else isRetryableFuel fuel inner
    | none => classifyRest e

/-- `IsRetryable` on a non-nil error. -/
def isRetryableE (e : GoError) : Bool := isRetryableFuel (esize e) e

/-- `IsRetryable` from `retry.go`: `nil` is not retryable, otherwise
classify the error value. -/
def IsRetryable : Option GoError → Bool
  | none => false
  | some e => isRetryableE e

/-- A connection-reset error as produced by the network stack:
a `*net.OpError` wrapping `syscall.ECONNRESET`. -/
def connResetErr : GoError := .opError false false (.errno ECONNRESET)

example : IsRetryable (some connResetErr) = true := by decide
example : IsRetryable (some .canceled) = false := by decide
example : IsRetryable (some (.urlError true false .deadlineExceeded)) = true := by decide
example : IsRetryable (some (.basic "permanent error")) = false := by decide

/-- Retry configuration (`Config` in `retry.go`).  Delays are
`time.Duration` values, modelled as rationals counting nanoseconds. -/
structure Config where
  MaxAttempts : Int
  InitialDelay : ℚ
  MaxDelay : ℚ
  BackoffMultiplier : ℚ
deriving DecidableEq, Repr

/-- One nanosecond is `1`; `time.Second` in those units. -/
def Second : ℚ := 1000000000

/-- `DefaultConfig` from `retry.go`. -/
def DefaultConfig : Config :=
  { MaxAttempts := 3
    InitialDelay := 1 * Second
    MaxDelay := 30 * Second
    BackoffMultiplier := 2 }

/-- Observable outcome of one `Config.Do` run: the returned error value,
how many times the operation was invoked, and the sequence of completed
inter-attempt waits (in order, as durations). -/
structure DoResult where
  result : Option GoError
  calls : Nat
  waits : List ℚ
deriving DecidableEq, Repr

/-- The error built after the attempt loop of `Do` exits without success:
`fmt.Errorf("operation failed after %d attempts: %w", c.MaxAttempts, lastErr)`
when `c.MaxAttempts > 1`, otherwise `lastErr` itself.  (The wrap branch is
only reachable with a non-nil `lastErr`; `goNil` is the vacuous filler.) -/
def afterLoopErr (c : Config) (lastErr : Option GoError) : Option GoError :=
  if 1 < c.MaxAttempts then
    some (.wrapf ("operation failed after " ++ toString c.MaxAttempts ++ " attempts: ")
      (lastErr.getD .goNil))
  else lastErr

/-- The attempt loop of `Config.Do`.  `remaining` is the number of loop
iterations the bound `attempt <= c.MaxAttempts` still allows (it starts at
`c.MaxAttempts.toNat` and `remaining = 1` means the current attempt is the
last one); `attempt` is the 1-based index of the current attempt; `delay`
is the current backoff delay; `waits` accumulates the completed waits.

`op n` is the error returned by the `n`-th invocation of the operation
(`none` = success).  `ctxDone n` says whether the cancellation signal
fires before the backoff timer during the wait that follows attempt `n`,
and `ctxErr` is what `ctx.Err()` returns then. -/
def doRun (c : Config) (ctxDone : Nat → Bool) (ctxErr : GoError)
    (op : Nat → Option GoError) :
    Nat → Nat → ℚ → List ℚ → Option GoError → DoResult
  | 0, attempt, _delay, waits, lastErr =>
    { result := afterLoopErr c lastErr, calls := attempt - 1, waits := waits }
  | remaining + 1, attempt, delay, waits, _lastErr =>
    match op attempt with
    | none => { result := none, calls := attempt, waits := waits }
    | some err =>
      if ! IsRetryable (some err) then
        { result := some err, calls := attempt, waits := waits }
      else if remaining == 0 then
        { result := afterLoopErr c (some err), calls := attempt, waits := waits }
      else if ctxDone attempt then
        { result := some ctxErr, calls := attempt, waits := waits }
      else
        let next := delay * c.BackoffMultiplier
        let next := if c.MaxDelay < next then c.MaxDelay else next
        doRun c ctxDone ctxErr op remaining (attempt + 1) next (waits ++ [delay]) (some err)

/-- `Config.Do` from `retry.go`: run the operation up to `MaxAttempts`
times, waiting `delay` between attempts (starting at `InitialDelay`,
multiplied by `BackoffMultiplier` and clamped to `MaxDelay` after each
completed wait), aborting a wait when the context is cancelled. -/
def Config.Do (c : Config) (ctxDone : Nat → Bool) (ctxErr : GoError)
    (op : Nat → Option GoError) : DoResult :=
  doRun c ctxDone ctxErr op c.MaxAttempts.toNat 1 c.InitialDelay [] none

/-- The value held by the `delay` variable of `Do` after `j` completed
waits: `InitialDelay`, then multiply-and-clamp once per wait. -/
def delaySeq (c : Config) : Nat → ℚ
  | 0 => c.InitialDelay
  | j + 1 =>
    let next := delaySeq c j * c.BackoffMultiplier
    if c.MaxDelay < next then c.MaxDelay else next

/-! ## Environment loading (`LoadConfig`) -/

/-- Value of a digit string (most significant first); `0` on `[]`. -/
def natOfDigits (l : List Char) : Nat :=
  l.foldl (fun acc ch => acc * 10 + (ch.toNat - 48)) 0

/-- Parse a non-empty all-digit string. -/
def digitsToNat? (l : List Char) : Option Nat :=
  if l = [] || ! l.all Char.isDigit then none else some (natOfDigits l)

/-- `strconv.Atoi`: optional sign followed by digits.  (Go additionally
fails on out-of-int64 values; those are rejected by the range guards of
`LoadConfig` anyway, so overflow is not modelled.) -/
def Atoi (s : String) : Option Int :=
  match s.toList with
  | '+' :: rest => (digitsToNat? rest).map (fun n => (n : Int))
  | '-' :: rest => (digitsToNat? rest).map (fun n => -(n : Int))
  | l => (digitsToNat? l).map (fun n => (n : Int))

/-- Decimal recognizer underlying `ParseFloat`: splits a well-formed
`[sign] digits [. digits]` string into (negative?, integer digits,
fraction digits); `none` on anything else. -/
def parseDec (s : String) : Option (Bool × List Char × List Char) :=
  let signAndRest : Bool × List Char :=
    match s.toList with
    | c :: r => if c = '+' then (false, r) else if c = '-' then (true, r) else (false, c :: r)
    | [] => (false, [])
  let neg := signAndRest.1
  let rest := signAndRest.2
  let intPart := rest.takeWhile Char.isDigit
  let tail := rest.dropWhile Char.isDigit
  match tail with
  | [] => if intPart = [] then none else some (neg, intPart, [])
  | c :: frac =>
    if c = '.' ∧ frac.all Char.isDigit ∧ ¬(intPart = [] ∧ frac = []) then
      some (neg, intPart, frac)
    else none

/-- `strconv.ParseFloat`, modelled on its plain decimal forms
(optional sign, digits, optional fraction); exponent and hexadecimal
forms are not modelled.  Values are exact rationals. -/
def ParseFloat (s : String) : Option ℚ :=
  (parseDec s).map (fun x =>
    (if x.1 then (-1 : ℚ) else 1) *
      ((natOfDigits x.2.1 : ℚ) + (natOfDigits x.2.2 : ℚ) / 10 ^ x.2.2.length))

/-- Snapshot of the four environment variables read by `LoadConfig`
(`os.Getenv` returns `""` when a variable is unset). -/
structure RetryEnv where
  maxAttempts : String
  initialDelay : String
  maxDelay : String
  backoffMultiplier : String

/-- The `AZURE_LOGIN_RETRY_MAX_ATTEMPTS` block of `LoadConfig`. -/
def loadMaxAttempts (s : String) : Int :=
  if s ≠ "" then
    match Atoi s with
    | some maxAttempts =>
      if 0 < maxAttempts ∧ maxAttempts ≤ 10 then maxAttempts
      else DefaultConfig.MaxAttempts
    | none => DefaultConfig.MaxAttempts
  else DefaultConfig.MaxAttempts

/-- The `AZURE_LOGIN_RETRY_INITIAL_DELAY` block of `LoadConfig`
(the parsed value is a count of seconds). -/
def loadInitialDelay (s : String) : ℚ :=
  if s ≠ "" then
    match Atoi s with
    | some initialDelay =>
      if 0 < initialDelay ∧ initialDelay ≤ 60 then (initialDelay : ℚ) * Second
      else DefaultConfig.InitialDelay
    | none => DefaultConfig.InitialDelay
  else DefaultConfig.InitialDelay

/-- The `AZURE_LOGIN_RETRY_MAX_DELAY` block of `LoadConfig`. -/
def loadMaxDelay (s : String) : ℚ :=
  if s ≠ "" then
    match Atoi s with
    | some maxDelay =>
      if 0 < maxDelay ∧ maxDelay ≤ 300 then (maxDelay : ℚ) * Second
      else DefaultConfig.MaxDelay
    | none => DefaultConfig.MaxDelay
  else DefaultConfig.MaxDelay

/-- The `AZURE_LOGIN_RETRY_BACKOFF_MULTIPLIER` block of `LoadConfig`. -/
def loadBackoffMultiplier (s : String) : ℚ :=
  if s ≠ "" then
    match ParseFloat s with
    | some backoff =>
      if 1 ≤ backoff ∧ backoff ≤ 5 then backoff
      else DefaultConfig.BackoffMultiplier
    | none => DefaultConfig.BackoffMultiplier
  else DefaultConfig.BackoffMultiplier

/-- `LoadConfig` from `retry.go`: start from `DefaultConfig` and replace
each field whose environment variable is set, parses, and is in range. -/
def LoadConfig (env : RetryEnv) : Config :=
  { MaxAttempts := loadMaxAttempts env.maxAttempts
    InitialDelay := loadInitialDelay env.initialDelay
    MaxDelay := loadMaxDelay env.maxDelay
    BackoffMultiplier := loadBackoffMultiplier env.backoffMultiplier }

theorem connResetErr_retryable : IsRetryable (some connResetErr) = true := by decide

example :
    (Config.Do ⟨3, 2, 5, 2⟩
      (fun _ => false) .canceled (fun n => if n = 3 then none else some connResetErr)) =
    ⟨none, 3, [2, 4]⟩ := by
  norm_num [Config.Do, doRun, connResetErr_retryable]

example :
    (Config.Do ⟨2, 2, 1, 2⟩
      (fun _ => false) .canceled (fun _ => some connResetErr)).waits = [2] := by
  norm_num [Config.Do, doRun, connResetErr_retryable]

example : LoadConfig ⟨"7", "", "500", "1.5"⟩ =
    ⟨7, 1 * Second, 30 * Second, 3 / 2⟩ := by
  have h1 : Atoi "500" = some 500 := by decide
  have h2 : parseDec "1.5" = some (false, ['1'], ['5']) := by decide
  have h3 : natOfDigits ['1'] = 1 := by decide
  have h4 : natOfDigits ['5'] = 5 := by decide
  refine Config.mk.injEq .. ▸ ⟨by decide, by norm_num [loadInitialDelay, DefaultConfig], ?_, ?_⟩
  · norm_num [loadMaxDelay, h1, DefaultConfig]
  · norm_num [loadBackoffMultiplier, ParseFloat, h2, h3, h4,
      show ("1.5" : String) ≠ "" from by decide]

/-! ## Kubeconfig merge (`aks` package)

Embedding of the `Kubeconfig` data model and
`Kubeconfig.MergeClusterCredentials` with its three `upsert*` helpers.
The `Preferences map[string]any` field is carried along untouched by the
merge and is omitted from the model; `[]byte` values are lists of byte
values. -/

/-- `Cluster`: connection details of a cluster entry. -/
structure Cluster where
  server : String
  certificateAuthorityData : String
deriving DecidableEq, Repr

/-- `NamedCluster`: a `clusters` list entry. -/
structure NamedCluster where
  name : String
  cluster : Cluster
deriving DecidableEq, Repr

/-- `Context`: cluster + user + namespace (field `ns` is the yaml
`namespace`, a reserved word in Lean). -/
structure Context where
  cluster : String
  user : String
  ns : String
deriving DecidableEq, Repr

/-- `NamedContext`: a `contexts` list entry. -/
structure NamedContext where
  name : String
  context : Context
deriving DecidableEq, Repr

/-- `ExecEnvVar`: an environment variable for exec-based auth. -/
structure ExecEnvVar where
  name : String
  value : String
deriving DecidableEq, Repr

/-- `ExecConfig`: exec-based authentication settings. -/
structure ExecConfig where
  apiVersion : String
  command : String
  args : List String
  env : List ExecEnvVar
  interactiveMode : String
  provideClusterInfo : Bool
deriving DecidableEq, Repr

/-- `User`: user authentication configuration. -/
structure User where
  exec : Option ExecConfig
deriving DecidableEq, Repr

/-- `NamedUser`: a `users` list entry. -/
structure NamedUser where
  name : String
  user : User
deriving DecidableEq, Repr

/-- `Kubeconfig`: the parts of the kubeconfig file the merge touches. -/
structure Kubeconfig where
  apiVersion : String
  kind : String
  currentContext : String
  clusters : List NamedCluster
  contexts : List NamedContext
  users : List NamedUser
deriving DecidableEq, Repr

/-- `ClusterCredentials` (aks package): AKS cluster credentials. -/
structure ClusterCredentials where
  clusterName : String
  serverURL : String
  caCertificate : List Nat
  resourceGroup : String
  subscriptionID : String
  tenantID : String
  clientID : String
deriving DecidableEq, Repr

/-- The standard base64 alphabet of `encoding/base64.StdEncoding`. -/
def base64Alphabet : List Char :=
  "ABCDEFGHIJKLMNOPQRSTUVWXYZabcdefghijklmnopqrstuvwxyz0123456789+/".toList

/-- The base64 digit for a 6-bit value. -/
def b64Char (n : Nat) : Char := base64Alphabet.getD n 'A'

/-- `base64.StdEncoding.EncodeToString`, chunking 3 bytes into 4 digits
with `=` padding. -/
def base64Chunks : List Nat → List Char
  | [] => []
  | [b0] => [b64Char (b0 / 4), b64Char (b0 % 4 * 16), '=', '=']
  | [b0, b1] => [b64Char (b0 / 4), b64Char (b0 % 4 * 16 + b1 / 16), b64Char (b1 % 16 * 4), '=']
  | b0 :: b1 :: b2 :: rest =>
    b64Char (b0 / 4) :: b64Char (b0 % 4 * 16 + b1 / 16) :: b64Char (b1 % 16 * 4 + b2 / 64) ::
      b64Char (b2 % 64) :: base64Chunks rest

/-- `base64.StdEncoding.EncodeToString` on a byte list. -/
def base64Encode (l : List Nat) : String := String.mk (base64Chunks l)

example : base64Encode [77, 97, 110] = "TWFu" := by decide
example : base64Encode [77, 97] = "TWE=" := by decide

/-- `upsertCluster`: update server and CA data of the first cluster entry
with the given name, or append a new entry. -/
def upsertCluster : List NamedCluster → String → String → String → List NamedCluster
  | [], name, server, caCert => [⟨name, ⟨server, caCert⟩⟩]
  | c :: rest, name, server, caCert =>
    if c.name = name then ⟨c.name, ⟨server, caCert⟩⟩ :: rest
    else c :: upsertCluster rest name server caCert

/-- The user value installed by `upsertUser`: kubelogin exec-based Azure
CLI authentication (remaining `ExecConfig` fields are Go zero values). -/
def azureUser : User :=
  { exec := some
      { apiVersion := "client.authentication.k8s.io/v1beta1"
        command := "kubelogin"
        args := ["get-token", "--login", "azurecli"]
        env := []
        interactiveMode := ""
        provideClusterInfo := false } }

/-- `upsertUser`: overwrite the first user entry with the given name with
the Azure CLI exec user, or append a new one. -/
def upsertUser : List NamedUser → String → List NamedUser
  | [], name => [⟨name, azureUser⟩]
  | u :: rest, name =>
    if u.name = name then ⟨u.name, azureUser⟩ :: rest
    else u :: upsertUser rest name

/-- `upsertContext`: update cluster and user of the first context entry
with the given name (keeping its namespace), or append a new entry. -/
def upsertContext : List NamedContext → String → String → String → List NamedContext
  | [], name, cluster, user => [⟨name, ⟨cluster, user, ""⟩⟩]
  | c :: rest, name, cluster, user =>
    if c.name = name then ⟨c.name, ⟨cluster, user, c.context.ns⟩⟩ :: rest
    else c :: upsertContext rest name cluster user

/-- `Kubeconfig.MergeClusterCredentials`: upsert the cluster, user and
context entries for the AKS cluster and select its context. -/
def Kubeconfig.MergeClusterCredentials (k : Kubeconfig) (creds : ClusterCredentials) :
    Kubeconfig :=
  let clusterName := creds.clusterName
  let contextName := clusterName
  let userName := "clusterUser_" ++ creds.resourceGroup ++ "_" ++ creds.clusterName
  let caCertBase64 := base64Encode creds.caCertificate
  let k1 := { k with clusters := upsertCluster k.clusters clusterName creds.serverURL caCertBase64 }
  let k2 := { k1 with users := upsertUser k1.users userName }
  let k3 := { k2 with contexts := upsertContext k2.contexts contextName clusterName userName }
  { k3 with currentContext := contextName }

/-- Index of the first list entry satisfying `p`. -/
def firstIdx {α : Type} (p : α → Bool) : List α → Option Nat
  | [] => none
  | a :: l => if p a then some 0 else (firstIdx p l).map (fun i => i + 1)

/-! ## Claims about the failure classifier -/

lemma esize_pos (e : GoError) : 0 < esize e := by
  cases e <;> simp [esize]

/-- C4: for every error that is or wraps a `url.Error` whose `Timeout()`
self-reports `true`, `IsRetryable` returns `true` — whatever the wrapped
cause is, in particular when it is `context.DeadlineExceeded` (the
transport-timeout self-report is checked before the generic
cancellation/deadline check). -/
theorem c4_url_timeout_is_retryable (e inner : GoError) (tp : Bool)
    (h : asUrlError e = some (true, tp, inner)) :
    IsRetryable (some e) = true := by
  obtain ⟨f, hf⟩ : ∃ f, esize e = f + 1 :=
    ⟨esize e - 1, by have := esize_pos e; omega⟩
  simp [IsRetryable, isRetryableE, hf, isRetryableFuel, h]

/-- Witness for C4 at an HTTP-client timeout whose wrapped cause is the
deadline-exceeded sentinel: the generic deadline check would say `false`
(the chain reports deadline-exceeded), yet the classifier says `true`. -/
theorem c4_url_timeout_is_retryable_witness :
    goIs (.urlError true false .deadlineExceeded) .deadlineExceeded = true ∧
    IsRetryable (some (.urlError true false .deadlineExceeded)) = true :=
  ⟨by decide,
   c4_url_timeout_is_retryable (.urlError true false .deadlineExceeded)
     .deadlineExceeded false (by decide)⟩

/-- C7: classifier table — `false` for nil, cancellation, caller deadline
expiry, generic application errors and non-temporary DNS errors; `true`
for temporary DNS errors and for connection-level errors reporting
connection reset / refused, network or host unreachable, connection
aborted or operation timed out, whatever their `Timeout()`/`Temporary()`
flags report. -/
theorem c7_classifier_table :
    IsRetryable none = false ∧
    IsRetryable (some .canceled) = false ∧
    IsRetryable (some .deadlineExceeded) = false ∧
    (∀ s, IsRetryable (some (.basic s)) = false) ∧
    (∀ t, IsRetryable (some (.dnsError t false)) = false) ∧
    (∀ t, IsRetryable (some (.dnsError t true)) = true) ∧
    (∀ t tp, IsRetryable (some (.opError t tp (.errno ECONNRESET))) = true) ∧
    (∀ t tp, IsRetryable (some (.opError t tp (.errno ECONNREFUSED))) = true) ∧
    (∀ t tp, IsRetryable (some (.opError t tp (.errno ENETUNREACH))) = true) ∧
    (∀ t tp, IsRetryable (some (.opError t tp (.errno EHOSTUNREACH))) = true) ∧
    (∀ t tp, IsRetryable (some (.opError t tp (.errno ECONNABORTED))) = true) ∧
    (∀ t tp, IsRetryable (some (.opError t tp (.errno ETIMEDOUT))) = true) := by
  refine ⟨rfl, rfl, rfl, fun s => rfl, ?_, ?_, ?_, ?_, ?_, ?_, ?_, ?_⟩ <;>
    intros <;> rfl

/-! ## Claims about the retry driver -/

/-- C2: when the operation always returns a non-retryable error, `Do`
invokes it exactly once and returns the operation's error value
unchanged — no wrapping, no attempt-count framing, no waits. -/
theorem c2_non_retryable_returns_unchanged (c : Config) (ctxDone : Nat → Bool)
    (ctxErr : GoError) (op : Nat → Option GoError) (hmax : 1 ≤ c.MaxAttempts)
    (hop : ∀ i, 1 ≤ i → op i ≠ none ∧ IsRetryable (op i) = false) :
    c.Do ctxDone ctxErr op = ⟨op 1, 1, []⟩ := by
  obtain ⟨hne, hnr⟩ := hop 1 le_rfl
  obtain ⟨e, he⟩ := Option.ne_none_iff_exists'.mp hne
  obtain ⟨r, hr⟩ : ∃ r, c.MaxAttempts.toNat = r + 1 :=
    ⟨c.MaxAttempts.toNat - 1, by omega⟩
  rw [he] at hnr
  simp [Config.Do, hr, doRun, he, hnr]

/-- Witness for C2: three allowed attempts, an operation failing with a
permanent application error — one call, the error returned verbatim. -/
theorem c2_non_retryable_returns_unchanged_witness :
    (1 : Int) ≤ (3 : Int) ∧
    Config.Do ⟨3, 2, 5, 2⟩ (fun _ => false) .canceled
        (fun _ => some (.basic "permanent error")) =
      ⟨some (.basic "permanent error"), 1, []⟩ :=
  ⟨by decide,
   c2_non_retryable_returns_unchanged ⟨3, 2, 5, 2⟩ (fun _ => false) .canceled
     (fun _ => some (.basic "permanent error")) (by decide)
     (fun i _ => ⟨by simp, rfl⟩)⟩

/-- C9: when `MaxAttempts ≤ 0` (violating the documented `maxAttempts ≥ 1`
invariant, which `Do` does not check), the attempt loop never runs and
`Do` returns nil without invoking the operation. -/
theorem c9_nonpositive_max_attempts (c : Config) (ctxDone : Nat → Bool)
    (ctxErr : GoError) (op : Nat → Option GoError) (h : c.MaxAttempts ≤ 0) :
    c.Do ctxDone ctxErr op = ⟨none, 0, []⟩ := by
  have h0 : c.MaxAttempts.toNat = 0 := by omega
  simp [Config.Do, h0, doRun, afterLoopErr, show ¬(1 < c.MaxAttempts) by omega]

/-- Witness for C9 at `MaxAttempts = 0` with an always-failing operation:
no calls, nil result. -/
theorem c9_nonpositive_max_attempts_witness :
    (0 : Int) ≤ 0 ∧
    Config.Do ⟨0, 2, 5, 2⟩ (fun _ => false) .canceled (fun _ => some connResetErr) =
      ⟨none, 0, []⟩ :=
  ⟨le_rfl,
   c9_nonpositive_max_attempts ⟨0, 2, 5, 2⟩ (fun _ => false) .canceled
     (fun _ => some connResetErr) (by decide)⟩

/-- If attempts `attempt, …, N-1` fail retryably, the `N`-th succeeds and
the context never fires, the loop returns nil after attempt `N`. -/
lemma doRun_success_at (c : Config) (ctxErr : GoError) (op : Nat → Option GoError)
    (N : Nat) (hsucc : op N = none) :
    ∀ remaining attempt delay waits lastErr,
      attempt + remaining = N + 1 → 1 ≤ attempt → attempt ≤ N →
      (∀ i, attempt ≤ i → i < N → op i ≠ none ∧ IsRetryable (op i) = true) →
      (doRun c (fun _ => false) ctxErr op remaining attempt delay waits lastErr).result
          = none ∧
        (doRun c (fun _ => false) ctxErr op remaining attempt delay waits lastErr).calls
          = N := by
  intro remaining
  induction remaining with
  | zero => intro attempt _ _ _ hsum _ hle _; omega
  | succ r ih =>
    intro attempt delay waits lastErr hsum h1 hle hfail
    rcases eq_or_lt_of_le hle with heq | hlt
    · subst heq
      simp [doRun, hsucc]
    · obtain ⟨hne, hretry⟩ := hfail attempt le_rfl hlt
      obtain ⟨e, he⟩ := Option.ne_none_iff_exists'.mp hne
      rw [he] at hretry
      have hr0 : r ≠ 0 := by omega
      simp only [doRun, he, hretry, Bool.not_true, Bool.false_eq_true, if_false,
        beq_iff_eq, hr0, if_neg, Bool.false_eq_true]
      exact ih (attempt + 1) _ _ _ (by omega) (by omega) (by omega)
        (fun i hi1 hi2 => hfail i (by omega) hi2)

/-- C1: with `MaxAttempts = N > 1`, retryable failures on attempts
`1..N-1` and success on attempt `N`, `Do` invokes the operation exactly
`N` times and returns nil. -/
theorem c1_succeeds_after_retryable_failures (c : Config) (ctxErr : GoError)
    (op : Nat → Option GoError) (N : Nat) (hN : c.MaxAttempts = (N : Int))
    (h1 : 1 < N)
    (hfail : ∀ i, 1 ≤ i → i < N → op i ≠ none ∧ IsRetryable (op i) = true)
    (hsucc : op N = none) :
    (c.Do (fun _ => false) ctxErr op).result = none ∧
      (c.Do (fun _ => false) ctxErr op).calls = N := by
  have htn : c.MaxAttempts.toNat = N := by omega
  rw [Config.Do, htn]
  exact doRun_success_at c ctxErr op N hsucc N 1 c.InitialDelay [] none
    (by omega) le_rfl (by omega) hfail

/-- Witness for C1 with `N = 3`: two connection resets then success —
three calls, nil result. -/
theorem c1_succeeds_after_retryable_failures_witness :
    ((⟨3, 2, 5, 2⟩ : Config).MaxAttempts = ((3 : Nat) : Int)) ∧ 1 < 3 ∧
    (Config.Do ⟨3, 2, 5, 2⟩ (fun _ => false) .canceled
        (fun n => if n = 3 then none else some connResetErr)).result = none ∧
    (Config.Do ⟨3, 2, 5, 2⟩ (fun _ => false) .canceled
        (fun n => if n = 3 then none else some connResetErr)).calls = 3 :=
  ⟨by decide, by decide,
   c1_succeeds_after_retryable_failures ⟨3, 2, 5, 2⟩ .canceled
     (fun n => if n = 3 then none else some connResetErr) 3 (by decide) (by decide)
     (fun i hi1 hi2 => by
       have : i ≠ 3 := by omega
       refine ⟨by simp [this], by simp [this, connResetErr_retryable]⟩)
     (by decide)⟩

/-- The loop on an operation that always fails retryably, with a quiet
context: it runs out of attempts at index `attempt + remaining - 1` and
produces the post-loop error for that attempt's error. -/
lemma doRun_all_fail (c : Config) (ctxErr : GoError) (op : Nat → Option GoError)
    (hfail : ∀ i, 1 ≤ i → op i ≠ none ∧ IsRetryable (op i) = true) :
    ∀ remaining attempt delay waits lastErr, 1 ≤ attempt → 1 ≤ remaining →
      ∃ e, op (attempt + remaining - 1) = some e ∧
        (doRun c (fun _ => false) ctxErr op remaining attempt delay waits lastErr).result
            = afterLoopErr c (some e) ∧
          (doRun c (fun _ => false) ctxErr op remaining attempt delay waits lastErr).calls
            = attempt + remaining - 1 := by
  intro remaining
  induction remaining with
  | zero => intro attempt _ _ _ _ h0; omega
  | succ r ih =>
    intro attempt delay waits lastErr h1 _
    obtain ⟨hne, hretry⟩ := hfail attempt h1
    obtain ⟨e, he⟩ := Option.ne_none_iff_exists'.mp hne
    rw [he] at hretry
    rcases Nat.eq_zero_or_pos r with hr | hr
    · subst hr
      exact ⟨e, by simpa using he, by simp [doRun, he, hretry], by simp [doRun, he, hretry]⟩
    · have hr0 : r ≠ 0 := by omega
      obtain ⟨e2, he2, hres, hcalls⟩ :=
        ih (attempt + 1) (let next := delay * c.BackoffMultiplier;
          if c.MaxDelay < next then c.MaxDelay else next) (waits ++ [delay]) (some e)
          (by omega) hr
      have hidx : attempt + 1 + r - 1 = attempt + (r + 1) - 1 := by omega
      rw [hidx] at he2
      refine ⟨e2, he2, ?_, ?_⟩ <;>
          simp only [doRun, he, hretry, Bool.not_true, Bool.false_eq_true, if_false,
            beq_iff_eq, hr0, if_neg]
      · simp only [hres]
      · simp only [hcalls]
        omega


/-- C3: when the operation always fails retryably and the context stays
quiet, `Do` invokes it exactly `MaxAttempts` times; with `MaxAttempts > 1`
it returns the last error wrapped in a message stating the attempt count,
the cause recoverable by unwrapping; with `MaxAttempts = 1` it returns
the last (only) operation error itself, unwrapped. -/
theorem c3_exhaustion_wraps_last_error (c : Config) (ctxErr : GoError)
    (op : Nat → Option GoError) (hmax : 1 ≤ c.MaxAttempts)
    (hfail : ∀ i, 1 ≤ i → op i ≠ none ∧ IsRetryable (op i) = true) :
    (c.Do (fun _ => false) ctxErr op).calls = c.MaxAttempts.toNat ∧
    (1 < c.MaxAttempts →
      ∃ e, op c.MaxAttempts.toNat = some e ∧
        (c.Do (fun _ => false) ctxErr op).result =
          some (.wrapf ("operation failed after " ++ toString c.MaxAttempts ++
            " attempts: ") e) ∧
        GoError.unwrap (.wrapf ("operation failed after " ++ toString c.MaxAttempts ++
            " attempts: ") e) = some e) ∧
    (c.MaxAttempts = 1 → (c.Do (fun _ => false) ctxErr op).result = op 1) := by
  obtain ⟨e, he, hres, hcalls⟩ :=
    doRun_all_fail c ctxErr op hfail c.MaxAttempts.toNat 1 c.InitialDelay [] none
      le_rfl (by omega)
  have hidx : 1 + c.MaxAttempts.toNat - 1 = c.MaxAttempts.toNat := by omega
  rw [hidx] at he hcalls
  rw [Config.Do]
  refine ⟨hcalls, fun hgt => ⟨e, he, ?_, rfl⟩, fun h1 => ?_⟩
  · rw [hres, afterLoopErr, if_pos hgt]
    rfl
  · rw [hres, afterLoopErr, if_neg (by omega)]
    rw [h1] at he
    simp only [Int.toNat_one] at he
    exact he.symm

/-- Witness for C3 at `MaxAttempts = 2` with an always-resetting
connection: two calls, the reset wrapped with the attempt count. -/
theorem c3_exhaustion_wraps_last_error_witness :
    (1 : Int) ≤ 2 ∧
    ((Config.Do ⟨2, 2, 5, 2⟩ (fun _ => false) .canceled
        (fun _ => some connResetErr)).calls = ((2 : Int)).toNat ∧
      (1 < (2 : Int) →
        ∃ e, (fun _ => some connResetErr) ((2 : Int)).toNat = some e ∧
          (Config.Do ⟨2, 2, 5, 2⟩ (fun _ => false) .canceled
              (fun _ => some connResetErr)).result =
            some (.wrapf ("operation failed after " ++ toString (2 : Int) ++
              " attempts: ") e) ∧
          GoError.unwrap (.wrapf ("operation failed after " ++ toString (2 : Int) ++
              " attempts: ") e) = some e) ∧
      ((2 : Int) = 1 →
        (Config.Do ⟨2, 2, 5, 2⟩ (fun _ => false) .canceled
            (fun _ => some connResetErr)).result = (fun _ => some connResetErr) 1)) :=
  ⟨by decide,
   c3_exhaustion_wraps_last_error ⟨2, 2, 5, 2⟩ .canceled (fun _ => some connResetErr)
     (by decide) (fun i _ => ⟨by simp, rfl⟩)⟩

/-- If attempts `1..a` fail retryably and the context fires during the
wait following attempt `a` (quiet before), the loop returns the context
error after exactly `a` calls. -/
lemma doRun_cancel (c : Config) (ctxDone : Nat → Bool) (ctxErr : GoError)
    (op : Nat → Option GoError) (a : Nat) (hc : ctxDone a = true)
    (hcp : ∀ j, 1 ≤ j → j < a → ctxDone j = false)
    (hfail : ∀ i, 1 ≤ i → i ≤ a → op i ≠ none ∧ IsRetryable (op i) = true) :
    ∀ remaining attempt delay waits lastErr,
      1 ≤ attempt → attempt ≤ a → a + 2 ≤ attempt + remaining →
      (doRun c ctxDone ctxErr op remaining attempt delay waits lastErr).result
          = some ctxErr ∧
        (doRun c ctxDone ctxErr op remaining attempt delay waits lastErr).calls = a := by
  intro remaining
  induction remaining with
  | zero => intro attempt _ _ _ _ hle hbound; omega
  | succ r ih =>
    intro attempt delay waits lastErr h1 hle hbound
    obtain ⟨hne, hretry⟩ := hfail attempt h1 hle
    obtain ⟨e, he⟩ := Option.ne_none_iff_exists'.mp hne
    rw [he] at hretry
    have hr0 : r ≠ 0 := by omega
    rcases eq_or_lt_of_le hle with heq | hlt
    · subst heq
      simp [doRun, he, hretry, hr0, hc]
    · have hquiet : ctxDone attempt = false := hcp attempt h1 hlt
      simp only [doRun, he, hretry, Bool.not_true, Bool.false_eq_true, if_false,
        beq_iff_eq, hr0, if_neg, hquiet]
      exact ih (attempt + 1) _ _ _ (by omega) (by omega) (by omega)

/-- C6: if the cancellation signal fires during the inter-attempt wait
after attempt `a` (having stayed quiet before, with attempts `1..a`
failing retryably), `Do` abandons retrying and returns the context's
error — not the operation's last error — and the number of operation
invocations, `a`, is strictly less than `MaxAttempts`. -/
theorem c6_cancellation_during_wait (c : Config) (ctxDone : Nat → Bool)
    (ctxErr : GoError) (op : Nat → Option GoError) (a : Nat) (h1 : 1 ≤ a)
    (ha : (a : Int) < c.MaxAttempts) (hc : ctxDone a = true)
    (hcp : ∀ j, 1 ≤ j → j < a → ctxDone j = false)
    (hfail : ∀ i, 1 ≤ i → i ≤ a → op i ≠ none ∧ IsRetryable (op i) = true) :
    (c.Do ctxDone ctxErr op).result = some ctxErr ∧
      (c.Do ctxDone ctxErr op).calls = a ∧
      ((c.Do ctxDone ctxErr op).calls : Int) < c.MaxAttempts := by
  obtain ⟨hres, hcalls⟩ :=
    doRun_cancel c ctxDone ctxErr op a hc hcp hfail c.MaxAttempts.toNat 1
      c.InitialDelay [] none le_rfl h1 (by omega)
  rw [Config.Do]
  exact ⟨hres, hcalls, by rw [hcalls]; exact ha⟩

/-- Witness for C6: `MaxAttempts = 3`, reset failures, cancellation
during the wait after attempt 1 — context error returned after one call,
strictly fewer calls than allowed attempts. -/
theorem c6_cancellation_during_wait_witness :
    1 ≤ 1 ∧ ((1 : Nat) : Int) < 3 ∧
    ((Config.Do ⟨3, 2, 5, 2⟩ (fun n => n == 1) .canceled
        (fun _ => some connResetErr)).result = some .canceled ∧
      (Config.Do ⟨3, 2, 5, 2⟩ (fun n => n == 1) .canceled
          (fun _ => some connResetErr)).calls = 1 ∧
      ((Config.Do ⟨3, 2, 5, 2⟩ (fun n => n == 1) .canceled
          (fun _ => some connResetErr)).calls : Int) < (3 : Int)) :=
  ⟨le_rfl, by decide,
   c6_cancellation_during_wait ⟨3, 2, 5, 2⟩ (fun n => n == 1) .canceled
     (fun _ => some connResetErr) 1 le_rfl (by decide) (by decide)
     (fun j hj1 hj2 => by omega) (fun i _ _ => ⟨by simp, rfl⟩)⟩

/-- One multiply-and-clamp step applied to an already-clamped value
equals the clamp of the one-step-larger product (`1 ≤ m`, `0 ≤ a`,
`0 ≤ D`). -/
lemma clampStep (a D m : ℚ) (ha : 0 ≤ a) (hD : 0 ≤ D) (hm : 1 ≤ m) :
    (if D < (a ⊓ D) * m then D else (a ⊓ D) * m) = (a * m) ⊓ D := by
  rcases le_total a D with h | h
  · rw [min_eq_left h]
    rcases lt_or_le D (a * m) with h2 | h2
    · rw [if_pos h2, min_eq_right h2.le]
    · rw [if_neg (not_lt.mpr h2), min_eq_left h2]
  · rw [min_eq_right h]
    have h3 : D ≤ a * m := by nlinarith
    rcases lt_or_le D (D * m) with h2 | h2
    · rw [if_pos h2, min_eq_right h3]
    · rw [if_neg (not_lt.mpr h2), min_eq_right h3]
      nlinarith

/-- Closed form of the delay sequence from the second wait on: with a
multiplier of at least 1 and nonnegative delays, the value after `j ≥ 1`
multiply-and-clamp steps is `min (InitialDelay * BackoffMultiplier ^ j)
MaxDelay`.  (The value for `j = 0` — the first wait — is `InitialDelay`
itself, never clamped.) -/
lemma delaySeq_closed (c : Config) (hm : 1 ≤ c.BackoffMultiplier)
    (hi : 0 ≤ c.InitialDelay) (hd : 0 ≤ c.MaxDelay) :
    ∀ j, 1 ≤ j →
      delaySeq c j = min (c.InitialDelay * c.BackoffMultiplier ^ j) c.MaxDelay := by
  intro j hj
  induction j with
  | zero => omega
  | succ n ih =>
    have hstep : delaySeq c (n + 1) =
        if c.MaxDelay < delaySeq c n * c.BackoffMultiplier then c.MaxDelay
        else delaySeq c n * c.BackoffMultiplier := rfl
    rcases Nat.eq_zero_or_pos n with hn | hn
    · subst hn
      rw [hstep]
      show (if c.MaxDelay < c.InitialDelay * c.BackoffMultiplier then c.MaxDelay
        else c.InitialDelay * c.BackoffMultiplier) = _
      rw [zero_add, pow_one]
      rcases lt_or_le c.MaxDelay (c.InitialDelay * c.BackoffMultiplier) with h | h
      · rw [if_pos h, min_eq_right h.le]
      · rw [if_neg (not_lt.mpr h), min_eq_left h]
    · rw [hstep, ih hn, clampStep _ _ _
        (mul_nonneg hi (pow_nonneg (le_trans zero_le_one hm) n)) hd hm,
        pow_succ, ← mul_assoc]

/-- The waits recorded by the loop are always an initial segment of the
delay sequence: started at step `j` of `delaySeq` with the first `j`
values already recorded, the loop only ever appends `delaySeq` values in
order. -/
lemma doRun_waits_delaySeq (c : Config) (ctxDone : Nat → Bool) (ctxErr : GoError)
    (op : Nat → Option GoError) :
    ∀ remaining attempt j lastErr,
      ∃ k, j ≤ k ∧
        (doRun c ctxDone ctxErr op remaining attempt (delaySeq c j)
            ((List.range j).map (delaySeq c)) lastErr).waits
          = (List.range k).map (delaySeq c) := by
  intro remaining
  induction remaining with
  | zero => intro attempt j lastErr; exact ⟨j, le_rfl, rfl⟩
  | succ r ih =>
    intro attempt j lastErr
    rcases hop : op attempt with _ | e
    · exact ⟨j, le_rfl, by simp [doRun, hop]⟩
    · rcases hretry : IsRetryable (some e) with _ | _
      · exact ⟨j, le_rfl, by simp [doRun, hop, hretry]⟩
      · rcases Nat.eq_zero_or_pos r with hr | hr
        · subst hr
          exact ⟨j, le_rfl, by simp [doRun, hop, hretry]⟩
        · rcases hdone : ctxDone attempt with _ | _
          · have hr0 : r ≠ 0 := by omega
            have hstep : (List.range j).map (delaySeq c) ++ [delaySeq c j]
                = (List.range (j + 1)).map (delaySeq c) := by
              rw [List.range_succ, List.map_append, List.map_cons, List.map_nil]
            obtain ⟨k, hk, hwaits⟩ := ih (attempt + 1) (j + 1) (some e)
            refine ⟨k, by omega, ?_⟩
            simp only [doRun, hop, hretry, Bool.not_true, Bool.false_eq_true, if_false,
              beq_iff_eq, hr0, if_neg, hdone]
            rw [hstep]
            exact hwaits
          · exact ⟨j, le_rfl, by
              simp [doRun, hop, hretry, hdone, show r ≠ 0 by omega]⟩

/-- C5 counterexample: with `InitialDelay = 2 > MaxDelay = 1`, the first
wait is `2` — the unclamped `InitialDelay` — not
`min (InitialDelay * BackoffMultiplier ^ 0) MaxDelay = 1` as the claim
states: the code never clamps the initial delay before the first wait. -/
theorem c5_backoff_counterexample :
    ¬((Config.Do ⟨2, 2, 1, 2⟩ (fun _ => false) .canceled
        (fun _ => some connResetErr)).waits.getD 0 0
      = min ((2 : ℚ) * (2 : ℚ) ^ (0 : ℕ)) 1) := by
  norm_num [Config.Do, doRun, connResetErr_retryable]

/-- C5 (amended): for every run of `Do`, the first wait equals
`InitialDelay` (unclamped, even when it exceeds `MaxDelay`), and the
`n`-th wait for `n ≥ 2` (index `i = n - 1 ≥ 1` here) equals
`min (InitialDelay * BackoffMultiplier ^ i) MaxDelay`, given the
configuration ranges `BackoffMultiplier ≥ 1` and nonnegative delays. -/
theorem c5_backoff_schedule_amended (c : Config) (ctxDone : Nat → Bool)
    (ctxErr : GoError) (op : Nat → Option GoError)
    (hm : 1 ≤ c.BackoffMultiplier) (hi : 0 ≤ c.InitialDelay) (hd : 0 ≤ c.MaxDelay) :
    ∀ i, i < (c.Do ctxDone ctxErr op).waits.length →
      (c.Do ctxDone ctxErr op).waits.getD i 0 =
        if i = 0 then c.InitialDelay
        else min (c.InitialDelay * c.BackoffMultiplier ^ i) c.MaxDelay := by
  obtain ⟨k, hk0, hw⟩ := doRun_waits_delaySeq c ctxDone ctxErr op c.MaxAttempts.toNat 1 0 none
  rw [show delaySeq c 0 = c.InitialDelay from rfl,
    show (List.range 0).map (delaySeq c) = [] from rfl] at hw
  intro i hlen
  rw [Config.Do] at hlen ⊢
  rw [hw] at hlen ⊢
  have hik : i < k := by simpa using hlen
  rw [List.getD_eq_getElem?_getD]
  simp only [List.getElem?_map, List.getElem?_range, hik, if_pos, Option.map_some,
    Option.map_some', Option.getD_some]
  rcases Nat.eq_zero_or_pos i with h0 | h0
  · subst h0
    simp [delaySeq]
  · rw [delaySeq_closed c hm hi hd i h0, if_neg (by omega)]

/-- Witness for the amended C5 at config `⟨3, 2, 5, 2⟩` with two failing
attempts: the second wait (index 1) is `min (2 * 2 ^ 1) 5 = 4`. -/
theorem c5_backoff_schedule_amended_witness :
    (1 : ℚ) ≤ 2 ∧ (0 : ℚ) ≤ 2 ∧ (0 : ℚ) ≤ 5 ∧
    (Config.Do ⟨3, 2, 5, 2⟩ (fun _ => false) .canceled
        (fun _ => some connResetErr)).waits.getD 1 0 =
      if (1 : Nat) = 0 then (2 : ℚ) else min ((2 : ℚ) * (2 : ℚ) ^ (1 : ℕ)) 5 :=
  ⟨by norm_num, by norm_num, by norm_num,
   c5_backoff_schedule_amended ⟨3, 2, 5, 2⟩ (fun _ => false) .canceled
     (fun _ => some connResetErr) (by norm_num) (by norm_num) (by norm_num) 1
     (by norm_num [Config.Do, doRun, connResetErr_retryable])⟩

lemma second_pos : (0 : ℚ) < Second := by norm_num [Second]

/-- `loadMaxAttempts` returns the default or a parsed in-range value, and
is always within `1..10`. -/
lemma loadMaxAttempts_spec (s : String) :
    (loadMaxAttempts s = 3 ∨
      ∃ n, Atoi s = some n ∧ 0 < n ∧ n ≤ 10 ∧ loadMaxAttempts s = n) ∧
    1 ≤ loadMaxAttempts s ∧ loadMaxAttempts s ≤ 10 := by
  unfold loadMaxAttempts
  split
  · rcases h : Atoi s with _ | n <;> simp only [h]
    · exact ⟨Or.inl rfl, by norm_num [DefaultConfig]⟩
    · split
      · next hin => exact ⟨Or.inr ⟨n, rfl, hin.1, hin.2, rfl⟩, by omega⟩
      · exact ⟨Or.inl rfl, by norm_num [DefaultConfig]⟩
  · exact ⟨Or.inl rfl, by norm_num [DefaultConfig]⟩

/-- `loadInitialDelay` returns the default or a parsed in-range value (in
seconds), and is always within `1s..60s`. -/
lemma loadInitialDelay_spec (s : String) :
    (loadInitialDelay s = 1 * Second ∨
      ∃ n, Atoi s = some n ∧ 0 < n ∧ n ≤ 60 ∧ loadInitialDelay s = (n : ℚ) * Second) ∧
    Second ≤ loadInitialDelay s ∧ loadInitialDelay s ≤ 60 * Second := by
  unfold loadInitialDelay
  split
  · rcases h : Atoi s with _ | n <;> simp only [h]
    · exact ⟨Or.inl rfl, by norm_num [DefaultConfig, Second]⟩
    · split
      · next hin =>
        have h1 : (1 : ℚ) ≤ (n : ℚ) := by exact_mod_cast hin.1
        have h60 : (n : ℚ) ≤ 60 := by exact_mod_cast hin.2
        refine ⟨Or.inr ⟨n, rfl, hin.1, hin.2, rfl⟩, ?_, ?_⟩
        · calc Second = 1 * Second := (one_mul _).symm
            _ ≤ (n : ℚ) * Second := by
                exact mul_le_mul_of_nonneg_right h1 second_pos.le
        · exact mul_le_mul_of_nonneg_right h60 second_pos.le
      · exact ⟨Or.inl rfl, by norm_num [DefaultConfig, Second]⟩
  · exact ⟨Or.inl rfl, by norm_num [DefaultConfig, Second]⟩

/-- `loadMaxDelay` returns the default or a parsed in-range value (in
seconds), and is always within `1s..300s`. -/
lemma loadMaxDelay_spec (s : String) :
    (loadMaxDelay s = 30 * Second ∨
      ∃ n, Atoi s = some n ∧ 0 < n ∧ n ≤ 300 ∧ loadMaxDelay s = (n : ℚ) * Second) ∧
    Second ≤ loadMaxDelay s ∧ loadMaxDelay s ≤ 300 * Second := by
  unfold loadMaxDelay
  split
  · rcases h : Atoi s with _ | n <;> simp only [h]
    · exact ⟨Or.inl rfl, by norm_num [DefaultConfig, Second]⟩
    · split
      · next hin =>
        have h1 : (1 : ℚ) ≤ (n : ℚ) := by exact_mod_cast hin.1
        have h300 : (n : ℚ) ≤ 300 := by exact_mod_cast hin.2
        refine ⟨Or.inr ⟨n, rfl, hin.1, hin.2, rfl⟩, ?_, ?_⟩
        · calc Second = 1 * Second := (one_mul _).symm
            _ ≤ (n : ℚ) * Second := by
                exact mul_le_mul_of_nonneg_right h1 second_pos.le
        · exact mul_le_mul_of_nonneg_right h300 second_pos.le
      · exact ⟨Or.inl rfl, by norm_num [DefaultConfig, Second]⟩
  · exact ⟨Or.inl rfl, by norm_num [DefaultConfig, Second]⟩

/-- `loadBackoffMultiplier` returns the default or a parsed in-range
value, and is always within `1.0..5.0`. -/
lemma loadBackoffMultiplier_spec (s : String) :
    (loadBackoffMultiplier s = 2 ∨
      ∃ q, ParseFloat s = some q ∧ 1 ≤ q ∧ q ≤ 5 ∧ loadBackoffMultiplier s = q) ∧
    1 ≤ loadBackoffMultiplier s ∧ loadBackoffMultiplier s ≤ 5 := by
  unfold loadBackoffMultiplier
  split
  · rcases h : ParseFloat s with _ | q <;> simp only [h]
    · exact ⟨Or.inl rfl, by norm_num [DefaultConfig]⟩
    · split
      · next hin => exact ⟨Or.inr ⟨q, rfl, hin.1, hin.2, rfl⟩, hin⟩
      · exact ⟨Or.inl rfl, by norm_num [DefaultConfig]⟩
  · exact ⟨Or.inl rfl, by norm_num [DefaultConfig]⟩

/-- C8: for every environment snapshot, `LoadConfig` yields a
configuration where each field is either the default or the parsed
in-range environment value (unset, unparsable or out-of-range values
silently fall back to the default), so the result always satisfies
`1 ≤ MaxAttempts ≤ 10`, `1s ≤ InitialDelay ≤ 60s`, `1s ≤ MaxDelay ≤ 300s`
and `1 ≤ BackoffMultiplier ≤ 5`. -/
theorem c8_load_config_bounds (env : RetryEnv) :
    (1 ≤ (LoadConfig env).MaxAttempts ∧ (LoadConfig env).MaxAttempts ≤ 10) ∧
    (Second ≤ (LoadConfig env).InitialDelay ∧
      (LoadConfig env).InitialDelay ≤ 60 * Second) ∧
    (Second ≤ (LoadConfig env).MaxDelay ∧ (LoadConfig env).MaxDelay ≤ 300 * Second) ∧
    (1 ≤ (LoadConfig env).BackoffMultiplier ∧ (LoadConfig env).BackoffMultiplier ≤ 5) ∧
    ((LoadConfig env).MaxAttempts = 3 ∨
      ∃ n, Atoi env.maxAttempts = some n ∧ 0 < n ∧ n ≤ 10 ∧
        (LoadConfig env).MaxAttempts = n) ∧
    ((LoadConfig env).InitialDelay = 1 * Second ∨
      ∃ n, Atoi env.initialDelay = some n ∧ 0 < n ∧ n ≤ 60 ∧
        (LoadConfig env).InitialDelay = (n : ℚ) * Second) ∧
    ((LoadConfig env).MaxDelay = 30 * Second ∨
      ∃ n, Atoi env.maxDelay = some n ∧ 0 < n ∧ n ≤ 300 ∧
        (LoadConfig env).MaxDelay = (n : ℚ) * Second) ∧
    ((LoadConfig env).BackoffMultiplier = 2 ∨
      ∃ q, ParseFloat env.backoffMultiplier = some q ∧ 1 ≤ q ∧ q ≤ 5 ∧
        (LoadConfig env).BackoffMultiplier = q) :=
  ⟨(loadMaxAttempts_spec env.maxAttempts).2,
   (loadInitialDelay_spec env.initialDelay).2,
   (loadMaxDelay_spec env.maxDelay).2,
   (loadBackoffMultiplier_spec env.backoffMultiplier).2,
   (loadMaxAttempts_spec env.maxAttempts).1,
   (loadInitialDelay_spec env.initialDelay).1,
   (loadMaxDelay_spec env.maxDelay).1,
   (loadBackoffMultiplier_spec env.backoffMultiplier).1⟩

/-- `upsertCluster` updates the first entry with the target name in
place (keeping list length and all other entries), or appends one new
entry when no entry has the target name. -/
lemma upsertCluster_spec (l : List NamedCluster) (name server ca : String) :
    upsertCluster l name server ca =
      match firstIdx (fun e => e.name == name) l with
      | some i => l.set i ⟨name, ⟨server, ca⟩⟩
      | none => l ++ [⟨name, ⟨server, ca⟩⟩] := by
  induction l with
  | nil => rfl
  | cons c rest ih =>
    by_cases h : c.name = name
    · simp [upsertCluster, firstIdx, h]
    · rw [upsertCluster, if_neg h, ih]
      rw [firstIdx, if_neg (by simpa using h)]
      rcases hidx : firstIdx (fun e => e.name == name) rest with _ | i <;> simp [hidx]

/-- `upsertUser` updates the first entry with the target name in place
(installing the Azure CLI exec user), or appends one new entry. -/
lemma upsertUser_spec (l : List NamedUser) (name : String) :
    upsertUser l name =
      match firstIdx (fun e => e.name == name) l with
      | some i => l.set i ⟨name, azureUser⟩
      | none => l ++ [⟨name, azureUser⟩] := by
  induction l with
  | nil => rfl
  | cons c rest ih =>
    by_cases h : c.name = name
    · simp [upsertUser, firstIdx, h]
    · rw [upsertUser, if_neg h, ih]
      rw [firstIdx, if_neg (by simpa using h)]
      rcases hidx : firstIdx (fun e => e.name == name) rest with _ | i <;> simp [hidx]

/-- `upsertContext` updates the first entry with the target name in
place (keeping its namespace), or appends one new entry with an empty
namespace. -/
lemma upsertContext_spec (l : List NamedContext) (name cluster user : String) :
    upsertContext l name cluster user =
      match firstIdx (fun e => e.name == name) l with
      | some i => l.set i ⟨name, ⟨cluster, user, (l.getD i ⟨"", ⟨"", "", ""⟩⟩).context.ns⟩⟩
      | none => l ++ [⟨name, ⟨cluster, user, ""⟩⟩] := by
  induction l with
  | nil => rfl
  | cons c rest ih =>
    by_cases h : c.name = name
    · simp [upsertContext, firstIdx, h]
    · rw [upsertContext, if_neg h, ih]
      rw [firstIdx, if_neg (by simpa using h)]
      rcases hidx : firstIdx (fun e => e.name == name) rest with _ | i <;> simp [hidx]

/-- C10: `MergeClusterCredentials` sets the current context to the
cluster name and upserts by name exactly one entry in each of the
clusters, contexts and users lists: when an entry with the target name
exists, the first such entry is replaced in place (`List.set`, so the
length and every other entry are unchanged); otherwise exactly one new
entry is appended. -/
theorem c10_merge_upserts_by_name (k : Kubeconfig) (creds : ClusterCredentials) :
    (k.MergeClusterCredentials creds).currentContext = creds.clusterName ∧
    (k.MergeClusterCredentials creds).clusters =
      (match firstIdx (fun e => e.name == creds.clusterName) k.clusters with
       | some i => k.clusters.set i
          ⟨creds.clusterName, ⟨creds.serverURL, base64Encode creds.caCertificate⟩⟩
       | none => k.clusters ++
          [⟨creds.clusterName, ⟨creds.serverURL, base64Encode creds.caCertificate⟩⟩]) ∧
    (k.MergeClusterCredentials creds).users =
      (match firstIdx
          (fun e => e.name == "clusterUser_" ++ creds.resourceGroup ++ "_" ++
            creds.clusterName) k.users with
       | some i => k.users.set i
          ⟨"clusterUser_" ++ creds.resourceGroup ++ "_" ++ creds.clusterName, azureUser⟩
       | none => k.users ++
          [⟨"clusterUser_" ++ creds.resourceGroup ++ "_" ++ creds.clusterName, azureUser⟩]) ∧
    (k.MergeClusterCredentials creds).contexts =
      (match firstIdx (fun e => e.name == creds.clusterName) k.contexts with
       | some i => k.contexts.set i
          ⟨creds.clusterName,
            ⟨creds.clusterName,
              "clusterUser_" ++ creds.resourceGroup ++ "_" ++ creds.clusterName,
              (k.contexts.getD i ⟨"", ⟨"", "", ""⟩⟩).context.ns⟩⟩
       | none => k.contexts ++
          [⟨creds.clusterName,
            ⟨creds.clusterName,
              "clusterUser_" ++ creds.resourceGroup ++ "_" ++ creds.clusterName, ""⟩⟩]) :=
  ⟨rfl, upsertCluster_spec .., upsertUser_spec .., upsertContext_spec ..⟩

end AzureLogin
